import Mathlib

/-!
Verification development for the batch dispatch/parse/reconcile pipeline of the
llm-labeler browser extension (`src/background/index.ts`).

The JavaScript runtime values flowing through the pipeline are modelled by a
`Json` inductive (JSON values plus the JavaScript `undefined`).  Numeric
literals are modelled as integers: the parser model accepts only integer
numerals, which covers every value the pipeline's own code constructs.
JavaScript library primitives used by the source (`JSON.parse`,
`JSON.stringify`, `String(x)`, `String.prototype.trim`, nullish coalescing,
truthiness) are given explicit executable models, and each source function of
the background module is translated one-to-one into a Lean definition of the
same name.
-/

set_option autoImplicit false

/-- Model of the JavaScript values handled by the pipeline: JSON values plus
the distinguished `undefined`. -/
inductive Json where
  | null
  | undef
  | bool (b : Bool)
  | num (n : Int)
  | str (s : String)
  | arr (elems : List Json)
  | obj (fields : List (String × Json))

namespace Json

/-- Property lookup `o.k` on an object: the first binding of the key.
JavaScript objects have unique keys, so first = only; on non-objects every
(non-builtin) property access yields `undefined`, modelled as `none`. -/
def jsGet (j : Json) (k : String) : Option Json :=
  match j with
  | .obj fields => fields.lookup k
  | _ => none

/-- Whether a value is nullish (`null` or `undefined`), the guard used by the
`??` operator. -/
def isNullish : Json → Bool
  | .null => true
  | .undef => true
  | _ => false

/-- Property access combined with `??`: yields the value only when present and
non-nullish. -/
def nnGet (j : Json) (k : String) : Option Json :=
  match jsGet j k with
  | some v => if v.isNullish then none else some v
  | none => none

/-- JavaScript truthiness of a value. -/
def jsTruthy : Json → Bool
  | .null => false
  | .undef => false
  | .bool b => b
  | .num n => !(n == 0)
  | .str s => !(s == "")
  | .arr _ => true
  | .obj _ => true

end Json

/-- JavaScript string-or `a || b` restricted to strings: the only falsy string
is the empty one. -/
def jsOrStr (a b : String) : String :=
  if a = "" then b else a

/-- Character class of JavaScript whitespace, shared by `String.prototype.trim`
and the regex `\s` class (ASCII whitespace forms plus NBSP and BOM). -/
def isJsWs (c : Char) : Bool :=
  c = ' ' || c = '\t' || c = '\n' || c = '\r' ||
  c = Char.ofNat 11 || c = Char.ofNat 12 || c = Char.ofNat 160 || c = Char.ofNat 0xFEFF

/-- Model of `String.prototype.trim`: strip leading and trailing whitespace. -/
def jsTrim (s : String) : String :=
  ⟨((s.data.dropWhile isJsWs).reverse.dropWhile isJsWs).reverse⟩

mutual

/-- Model of the JavaScript `String(x)` coercion. -/
def jsToString : Json → String
  | .null => "null"
  | .undef => "undefined"
  | .bool b => if b then "true" else "false"
  | .num n => toString n
  | .str s => s
  | .arr xs => String.intercalate "," (jsArrElemStrings xs)
  | .obj _ => "[object Object]"

/-- Rendering of array elements under `String(x)`
(`Array.prototype.toString` renders nullish elements as the empty string). -/
def jsArrElemStrings : List Json → List String
  | [] => []
  | v :: rest =>
    (match v with
     | .null => ""
     | .undef => ""
     | v' => jsToString v') :: jsArrElemStrings rest

end

/-- Object-spread source fields: `{...x}` copies an object's own enumerable
entries, an array's or string's indexed entries, and nothing from primitives. -/
def spreadFields : Json → List (String × Json)
  | .obj fields => fields
  | .arr xs => xs.enum.map (fun p => (toString p.1, p.2))
  | .str s => s.data.enum.map (fun p => (toString p.1, Json.str (String.singleton p.2)))
  | _ => []

/-- Assignment of a key in an object-literal build `{...base, k: v}`: an
existing key keeps its position and is overwritten, a new key is appended. -/
def setField (fields : List (String × Json)) (k : String) (v : Json) :
    List (String × Json) :=
  match fields with
  | [] => [(k, v)]
  | (k', v') :: rest =>
    if k' = k then (k', v) :: rest else (k', v') :: setField rest k v

/-- Source `normalizeParsed` (background/index.ts): rebind `id` from the
`id`/`sampleId`/`sample_id` chain with the fallback id, rebind `output_text`
from the `output_text`/`output`/`text`/`completion` chain with default `""`,
spreading the original entry. -/
def normalizeParsed (entry : Json) (fallbackId : String) : Json :=
  let id := ((entry.nnGet "id" <|> entry.nnGet "sampleId" <|> entry.nnGet "sample_id").getD
    (Json.str fallbackId))
  let output_text := ((entry.nnGet "output_text" <|> entry.nnGet "output" <|>
    entry.nnGet "text" <|> entry.nnGet "completion").getD (Json.str ""))
  .obj (setField (setField (spreadFields entry) "id" id) "output_text" output_text)

/-- Source `extractOutputText`: the `output_text`/`output`/`text`/`completion`
chain, kept only when it produced a string. -/
def extractOutputText (entry : Json) : Option String :=
  match entry.nnGet "output_text" <|> entry.nnGet "output" <|>
      entry.nnGet "text" <|> entry.nnGet "completion" with
  | some (.str s) => some s
  | _ => none

/-- The `ok` flag read off a parsed object:
`typeof obj.ok === "undefined" ? true : Boolean(obj.ok)`. -/
def okOf (o : Json) : Bool :=
  match o.jsGet "ok" with
  | none => true
  | some .undef => true
  | some v => v.jsTruthy

example : normalizeParsed (.obj [("output", .str "x")]) "s7" =
    .obj [("output", .str "x"), ("id", .str "s7"), ("output_text", .str "x")] := rfl

example : normalizeParsed (.obj [("id", .null), ("output_text", .str "y")]) "f" =
    .obj [("id", .str "f"), ("output_text", .str "y")] := rfl

example : okOf (.obj [("ok", .num 0)]) = false := rfl
example : okOf (.obj [("x", .num 0)]) = true := rfl

/-- Lowercase hexadecimal digit, used by the `\u00XX` escapes of
`JSON.stringify`. -/
def hexDigit (n : Nat) : Char :=
  if n < 10 then Char.ofNat (48 + n) else Char.ofNat (87 + n)

/-- Escape one character as `JSON.stringify` renders string contents. -/
def escapeChar (c : Char) : List Char :=
  if c = '"' then ['\\', '"']
  else if c = '\\' then ['\\', '\\']
  else if c = '\n' then ['\\', 'n']
  else if c = '\r' then ['\\', 'r']
  else if c = '\t' then ['\\', 't']
  else if c = Char.ofNat 8 then ['\\', 'b']
  else if c = Char.ofNat 12 then ['\\', 'f']
  else if c.toNat < 32 then
    ['\\', 'u', '0', '0', hexDigit (c.toNat / 16), hexDigit (c.toNat % 16)]
  else [c]

/-- Quote and escape a string as `JSON.stringify` does. -/
def jsonQuote (s : String) : String :=
  ⟨'"' :: s.data.foldr (fun c acc => escapeChar c ++ acc) ['"']⟩

mutual

/-- Model of `JSON.stringify` on the values the pipeline feeds it.  A
top-level `undefined` is unreachable in the modelled flows and is rendered
like an array element. -/
def jsonStringify : Json → String
  | .null => "null"
  | .undef => "null"
  | .bool b => if b then "true" else "false"
  | .num n => toString n
  | .str s => jsonQuote s
  | .arr xs => "[" ++ String.intercalate "," (stringifyElems xs) ++ "]"
  | .obj fs => "\x7b" ++ String.intercalate "," (stringifyMembers fs) ++ "\x7d"

/-- Array elements under `JSON.stringify` (`undefined` renders as `null`). -/
def stringifyElems : List Json → List String
  | [] => []
  | v :: rest =>
    (match v with
     | .undef => "null"
     | v' => jsonStringify v') :: stringifyElems rest

/-- Object members under `JSON.stringify` (`undefined`-valued keys are
skipped). -/
def stringifyMembers : List (String × Json) → List String
  | [] => []
  | (k, v) :: rest =>
    match v with
    | .undef => stringifyMembers rest
    | v' => (jsonQuote k ++ ":" ++ jsonStringify v') :: stringifyMembers rest

end

/-- Whitespace accepted between JSON tokens by `JSON.parse`. -/
def isJsonWs (c : Char) : Bool :=
  c = ' ' || c = '\t' || c = '\n' || c = '\r'

/-- Skip inter-token whitespace. -/
def skipJsonWs : List Char → List Char
  | [] => []
  | c :: rest => if isJsonWs c then skipJsonWs rest else c :: rest

/-- Value of a hexadecimal digit character. -/
def hexVal (c : Char) : Option Nat :=
  if '0' ≤ c && c ≤ '9' then some (c.toNat - 48)
  else if 'a' ≤ c && c ≤ 'f' then some (c.toNat - 87)
  else if 'A' ≤ c && c ≤ 'F' then some (c.toNat - 55)
  else none

/-- Body of a JSON string literal (after the opening quote): ordinary
characters, the short escapes, and `\uXXXX`; unescaped control characters are
rejected as `JSON.parse` does. -/
def parseStrBody (fuel : Nat) (acc : List Char) (s : List Char) :
    Option (String × List Char) :=
  match fuel with
  | 0 => none
  | fuel + 1 =>
    match s with
    | [] => none
    | c :: rest =>
      if c = '"' then some (⟨acc.reverse⟩, rest)
      else if c = '\\' then
        match rest with
        | 'u' :: h1 :: h2 :: h3 :: h4 :: rest2 =>
          match hexVal h1, hexVal h2, hexVal h3, hexVal h4 with
          | some a, some b, some c', some d =>
            parseStrBody fuel (Char.ofNat (((a * 16 + b) * 16 + c') * 16 + d) :: acc) rest2
          | _, _, _, _ => none
        | e :: rest2 =>
          let esc : Option Char :=
            if e = '"' then some '"'
            else if e = '\\' then some '\\'
            else if e = '/' then some '/'
            else if e = 'b' then some (Char.ofNat 8)
            else if e = 'f' then some (Char.ofNat 12)
            else if e = 'n' then some '\n'
            else if e = 'r' then some '\r'
            else if e = 't' then some '\t'
            else none
          match esc with
          | some ch => parseStrBody fuel (ch :: acc) rest2
          | none => none
        | [] => none
      else if c.toNat < 32 then none
      else parseStrBody fuel (c :: acc) rest

/-- Decimal value of a digit run. -/
def digitsVal (ds : List Char) : Nat :=
  ds.foldl (fun acc c => acc * 10 + (c.toNat - 48)) 0

/-- JSON numeric literal, restricted to the integer numerals of the model
(a literal with a fraction or exponent part is outside the model and
rejected); leading zeros are rejected as in the JSON grammar. -/
def parseNum (s : List Char) : Option (Int × List Char) :=
  let neg := match s with | '-' :: _ => true | _ => false
  let s1 := match s with | '-' :: rest => rest | _ => s
  let ds := s1.takeWhile Char.isDigit
  let rest := s1.dropWhile Char.isDigit
  if ds = [] then none
  else if ds.head? = some '0' && ds.length != 1 then none
  else
    match rest with
    | '.' :: _ => none
    | 'e' :: _ => none
    | 'E' :: _ => none
    | _ => some ((if neg then -(digitsVal ds : Int) else (digitsVal ds : Int)), rest)

mutual

/-- One JSON value with leading whitespace, returning the unconsumed rest.
Duplicate object keys follow the `JSON.parse` assignment order: the later
value wins while the key keeps its first position. -/
def parseValue : Nat → List Char → Option (Json × List Char)
  | 0, _ => none
  | fuel + 1, s =>
    match skipJsonWs s with
    | 'n' :: 'u' :: 'l' :: 'l' :: rest => some (.null, rest)
    | 't' :: 'r' :: 'u' :: 'e' :: rest => some (.bool true, rest)
    | 'f' :: 'a' :: 'l' :: 's' :: 'e' :: rest => some (.bool false, rest)
    | '"' :: rest => (parseStrBody (rest.length + 1) [] rest).map (fun p => (.str p.1, p.2))
    | '[' :: rest =>
      (match skipJsonWs rest with
       | ']' :: rest2 => some (.arr [], rest2)
       | _ => (parseElems fuel rest).map (fun p => (.arr p.1, p.2)))
    | '{' :: rest =>
      (match skipJsonWs rest with
       | '}' :: rest2 => some (.obj [], rest2)
       | _ =>
         (parseMembers fuel rest).map
           (fun p => (.obj (p.1.foldl (fun fs kv => setField fs kv.1 kv.2) []), p.2)))
    | s' => (parseNum s').map (fun p => (.num p.1, p.2))

/-- Non-empty array element list up to the closing bracket. -/
def parseElems : Nat → List Char → Option (List Json × List Char)
  | 0, _ => none
  | fuel + 1, s =>
    match parseValue fuel s with
    | none => none
    | some (v, rest) =>
      match skipJsonWs rest with
      | ',' :: rest2 => (parseElems fuel rest2).map (fun p => (v :: p.1, p.2))
      | ']' :: rest2 => some ([v], rest2)
      | _ => none

/-- Non-empty object member list up to the closing brace, in source order. -/
def parseMembers : Nat → List Char → Option (List (String × Json) × List Char)
  | 0, _ => none
  | fuel + 1, s =>
    match skipJsonWs s with
    | '"' :: rest =>
      (match parseStrBody (rest.length + 1) [] rest with
       | none => none
       | some (k, rest1) =>
         match skipJsonWs rest1 with
         | ':' :: rest2 =>
           (match parseValue fuel rest2 with
            | none => none
            | some (v, rest3) =>
              match skipJsonWs rest3 with
              | ',' :: rest4 => (parseMembers fuel rest4).map (fun p => ((k, v) :: p.1, p.2))
              | '}' :: rest4 => some ([(k, v)], rest4)
              | _ => none)
         | _ => none)
    | _ => none

end

/-- Model of `JSON.parse`: one value, possibly surrounded by whitespace,
consuming the entire input. -/
def jsonParse (s : String) : Option Json :=
  match parseValue (2 * s.data.length + 4) s.data with
  | some (v, rest) => if skipJsonWs rest = [] then some v else none
  | none => none

example : jsonParse "  [1, \x7b\"a\": \"b\"\x7d, null, true] " =
    some (.arr [.num 1, .obj [("a", .str "b")], .null, .bool true]) := rfl
example : jsonParse "\x7b\"a\":1,\"a\":2\x7d" = some (.obj [("a", .num 2)]) := rfl
example : jsonParse "[1,]" = none := rfl
example : jsonParse "\"a\\nb\"" = some (.str "a\nb") := rfl

/-- Whether the pattern is an initial segment of the character list. -/
def isHeadSeq : List Char → List Char → Bool
  | [], _ => true
  | p :: ps, c :: cs => p = c && isHeadSeq ps cs
  | _ :: _, [] => false

/-- Case-insensitive variant of `isHeadSeq` (regex `/i` flag). -/
def isHeadSeqCI : List Char → List Char → Bool
  | [], _ => true
  | p :: ps, c :: cs => p.toLower = c.toLower && isHeadSeqCI ps cs
  | _ :: _, [] => false

/-- Content preceding the first closing triple-backtick, if one exists
(the lazy group of the fence regex). -/
def findFenceClose : List Char → Option (List Char)
  | [] => none
  | c :: rest =>
    if isHeadSeq ['`', '`', '`'] (c :: rest) then some []
    else (findFenceClose rest).map (c :: ·)

/-- Attempt of the fence regex ```` ```(?:json)?\s*([\s\S]*?)``` ```` at one
position: leading triple backtick, optional case-insensitive `json` tag,
greedy whitespace, then the lazily captured content up to a closing fence. -/
def tryFenceAt (s : List Char) : Option (List Char) :=
  if isHeadSeq ['`', '`', '`'] s then
    let r1 := s.drop 3
    let r2 := if isHeadSeqCI ['j', 's', 'o', 'n'] r1 then r1.drop 4 else r1
    findFenceClose (r2.dropWhile isJsWs)
  else none

/-- First successful fence match in the text: the captured group of
`raw.match(...)`. -/
def fenceGroup : List Char → Option (List Char)
  | [] => none
  | c :: rest =>
    match tryFenceAt (c :: rest) with
    | some g => some g
    | none => fenceGroup rest

/-- Test `/^json\s*[\[{]/i` on a trimmed candidate. -/
def hasJsonMarker (s : List Char) : Bool :=
  isHeadSeqCI ['j', 's', 'o', 'n'] s &&
    (match (s.drop 4).dropWhile isJsWs with
     | '[' :: _ => true
     | '{' :: _ => true
     | _ => false)

/-- Replacement `/^json\s*/i → ""`: drop the marker and following
whitespace. -/
def dropJsonMarker (s : List Char) : List Char :=
  (s.drop 4).dropWhile isJsWs

/-- Tail of source `unwrapJsonish` past the fence check: trim, then strip a
leading bare `json` marker when one precedes a bracket. -/
def unwrapTail (raw : String) : String :=
  let t := jsTrim raw
  if hasJsonMarker t.data then ⟨dropJsonMarker t.data⟩ else t

/-- Source `unwrapJsonish`: empty input stays empty; a fenced block with a
non-empty (hence truthy) captured group yields the trimmed group; otherwise
the trimmed raw text, with a leading bare `json` marker stripped. -/
def unwrapJsonish (raw : String) : String :=
  if raw = "" then ""
  else
    match fenceGroup raw.data with
    | some g => if g = [] then unwrapTail raw else jsTrim ⟨g⟩
    | none => unwrapTail raw

/-- State machine of source `sliceBalanced`, returning the start index and the
exclusive end index of the first fully balanced region.  Parameters mirror the
mutable locals: first open position, nesting depth, in-string flag, escaped
flag, and the running index. -/
def sbAux (o c : Char) : List Char → Option Nat → Nat → Bool → Bool → Nat →
    Option (Nat × Nat)
  | [], _, _, _, _, _ => none
  | ch :: rest, start, depth, inString, escaped, i =>
    if escaped then sbAux o c rest start depth inString false (i + 1)
    else if ch = '\\' then sbAux o c rest start depth inString true (i + 1)
    else if ch = '"' then sbAux o c rest start depth (!inString) escaped (i + 1)
    else if inString then sbAux o c rest start depth inString escaped (i + 1)
    else if ch = o then
      sbAux o c rest (some (start.getD i)) (depth + 1) inString escaped (i + 1)
    else if ch = c && decide (0 < depth) then
      if depth = 1 then some (start.getD 0, i + 1)
      else sbAux o c rest start (depth - 1) inString escaped (i + 1)
    else sbAux o c rest start depth inString escaped (i + 1)

/-- Source `sliceBalanced`: the first balanced `open`/`close` region of the
text, respecting string literals and escapes. -/
def sliceBalanced (raw : String) (o c : Char) : Option String :=
  (sbAux o c raw.data none 0 false false 0).map
    (fun p => ⟨(raw.data.take p.2).drop p.1⟩)

/-- Source `extractJSONObject`: strict parse of the cleaned text as an object,
then a balanced-brace slice parsed as an object. -/
def extractJSONObject (raw : String) : Option Json :=
  let cleaned := unwrapJsonish raw
  match jsonParse cleaned with
  | some (.obj fs) => some (.obj fs)
  | _ =>
    match sliceBalanced cleaned '{' '}' with
    | some b =>
      (match jsonParse b with
       | some (.obj fs) => some (.obj fs)
       | _ => none)
    | none => none

/-- Source `extractJSONArray`: strict parse of the cleaned text as an array,
then a balanced-bracket slice parsed as an array. -/
def extractJSONArray (raw : String) : Option (List Json) :=
  let cleaned := unwrapJsonish raw
  match jsonParse cleaned with
  | some (.arr xs) => some xs
  | _ =>
    match sliceBalanced cleaned '[' ']' with
    | some b =>
      (match jsonParse b with
       | some (.arr xs) => some xs
       | _ => none)
    | none => none

/-- Index of the first occurrence of a pattern in the text (the text's length
when absent; the callers only use it on occurring patterns, where
`String.prototype.indexOf` also succeeds). -/
def indexOfSub (s pat : List Char) : Nat :=
  match s with
  | [] => 0
  | _ :: rest => if isHeadSeq pat s then 0 else indexOfSub rest pat + 1

/-- Loop shared by `extractObjectList` and `extractRawObjectEntries`:
successive balanced brace regions, each scan resuming at
`indexOf(balanced) + balanced.length` of the previous region. -/
def scanBalancedAux (fuel : Nat) (s : List Char) : List (List Char) :=
  match fuel with
  | 0 => []
  | fuel + 1 =>
    match sbAux '{' '}' s none 0 false false 0 with
    | none => []
    | some p =>
      let b := (s.take p.2).drop p.1
      b :: scanBalancedAux fuel (s.drop (indexOfSub s b + b.length))

/-- Successive balanced brace regions of a text. -/
def scanBalanced (s : List Char) : List (List Char) :=
  scanBalancedAux (s.length + 1) s

/-- Source `extractObjectList`: every balanced brace region that parses to an
object, or `null` when none do. -/
def extractObjectList (raw : String) : Option (List Json) :=
  let cleaned := unwrapJsonish raw
  let objs := (scanBalanced cleaned.data).filterMap (fun b =>
    match jsonParse ⟨b⟩ with
    | some (.obj fs) => some (Json.obj fs)
    | _ => none)
  if objs.isEmpty then none else some objs

/-- Lines split on newlines (the `\r?\n` split composed with the per-line trim
that follows it in the source). -/
def splitNewlines : List Char → List (List Char)
  | [] => [[]]
  | c :: rest =>
    if c = '\n' then [] :: splitNewlines rest
    else
      match splitNewlines rest with
      | [] => [[c]]
      | l :: ls => (c :: l) :: ls

/-- Source `extractRawObjectEntries`: the trimmed balanced brace regions, or
failing that the non-empty trimmed lines, or `null`. -/
def extractRawObjectEntries (raw : String) : Option (List String) :=
  let cleaned := unwrapJsonish raw
  let out := (scanBalanced cleaned.data).map (fun b => jsTrim ⟨b⟩)
  if out ≠ [] then some out
  else
    let lines := ((splitNewlines cleaned.data).map (fun l => jsTrim ⟨l⟩)).filter
      (fun l => l ≠ "")
    if lines ≠ [] then some lines else none

example : unwrapJsonish "```json\n[1]\n```" = "[1]" := rfl
example : unwrapJsonish "  json [1]" = "[1]" := rfl
example : unwrapJsonish " x \x7b\"a\": \"\x7d\"\x7d y" = "x \x7b\"a\": \"\x7d\"\x7d y" := rfl
example : sliceBalanced " x \x7b\"a\": \"\x7d\"\x7d y" '{' '}' = some "\x7b\"a\": \"\x7d\"\x7d" := rfl
example : extractJSONArray "```json [1, 2] ```" = some [.num 1, .num 2] := rfl
example : extractJSONArray "noise [1] noise" = some [.num 1] := rfl
example : extractObjectList "\x7b\"a\":1\x7d \x7b\"b\":2\x7d" =
    some [.obj [("a", .num 1)], .obj [("b", .num 2)]] := rfl
example : extractRawObjectEntries "one\n\ntwo " = some ["one", "two"] := rfl
example : extractRawObjectEntries "" = none := rfl
example : extractJSONArray "" = none := rfl
example : extractObjectList "" = none := rfl
example : extractJSONObject "x" = none := rfl

/-- Captured group `([^"]*)` up to the next quote, failing without a closing
quote. -/
def captureTilQuote : List Char → Option (List Char)
  | [] => none
  | c :: rest =>
    if c = '"' then some []
    else (captureTilQuote rest).map (c :: ·)

/-- Attempt of `/"id"\s*:\s*"([^"]*)"/i` at one position. -/
def tryIdPatAt (s : List Char) : Option (List Char) :=
  match s with
  | '"' :: rest =>
    if isHeadSeqCI ['i', 'd'] rest then
      match rest.drop 2 with
      | '"' :: r2 =>
        (match (r2.dropWhile isJsWs) with
         | ':' :: r4 =>
           (match r4.dropWhile isJsWs with
            | '"' :: r6 => captureTilQuote r6
            | _ => none)
         | _ => none)
      | _ => none
    else none
  | _ => none

/-- First match of the id regex in the text. -/
def idRegexMatch : List Char → Option (List Char)
  | [] => none
  | c :: rest =>
    match tryIdPatAt (c :: rest) with
    | some g => some g
    | none => idRegexMatch rest

/-- One alternative of the text-field regex at a position already past the
opening quote: the field name (case-insensitively), closing quote, whitespace,
colon; yields the full match length including the opening quote. -/
def tryTextAlt (rest alt : List Char) : Option Nat :=
  if isHeadSeqCI alt rest then
    match rest.drop alt.length with
    | '"' :: r2 =>
      (match r2.dropWhile isJsWs with
       | ':' :: _ => some (1 + alt.length + 1 + (r2.takeWhile isJsWs).length + 1)
       | _ => none)
    | _ => none
  else none

/-- Attempt of `/"(output_text|output|text|completion)"\s*:/i` at one
position, trying the alternatives in source order. -/
def tryTextFieldAt (s : List Char) : Option Nat :=
  match s with
  | '"' :: rest =>
    tryTextAlt rest ['o', 'u', 't', 'p', 'u', 't', '_', 't', 'e', 'x', 't'] <|>
    tryTextAlt rest ['o', 'u', 't', 'p', 'u', 't'] <|>
    tryTextAlt rest ['t', 'e', 'x', 't'] <|>
    tryTextAlt rest ['c', 'o', 'm', 'p', 'l', 'e', 't', 'i', 'o', 'n'] <|>
    none
  | _ => none

/-- First match of the text-field regex: its index and full length. -/
def textFieldSearch : List Char → Nat → Option (Nat × Nat)
  | [], _ => none
  | c :: rest, i =>
    match tryTextFieldAt (c :: rest) with
    | some len => some (i, len)
    | none => textFieldSearch rest (i + 1)

/-- Index of the last occurrence of a character (`String.prototype.lastIndexOf`,
with `none` for `-1`). -/
def lastIndexOfChar : List Char → Char → Option Nat
  | [], _ => none
  | x :: rest, c =>
    match lastIndexOfChar rest c with
    | some i => some (i + 1)
    | none => if x = c then some 0 else none

/-- Replacement of `/X\s*$/ → ""` for a single character `X`: drop the
character together with the trailing whitespace run when the text ends that
way, else leave the text unchanged. -/
def stripTrailingCharWs (s : List Char) (c : Char) : List Char :=
  match s.reverse.dropWhile isJsWs with
  | x :: rest => if x = c then rest.reverse else s
  | [] => s

/-- Source `parseLooseObject`: recover an id via the id regex (falling back to
the supplied fallback id), locate a text field name, and take the text after
its colon up to the last closing brace, trimmed, with a trailing comma, a
leading quote and a trailing quote stripped. -/
def parseLooseObject (rawObj : String) (fallbackId : String) : Option Json :=
  let trimmed := jsTrim rawObj
  if trimmed = "" then none
  else
    let capStr : String := match idRegexMatch trimmed.data with
      | some g => ⟨g⟩
      | none => ""
    let id := jsTrim (jsOrStr (jsOrStr capStr fallbackId) "")
    match textFieldSearch trimmed.data 0 with
    | none => none
    | some (idx, len) =>
      let start := idx + len
      let slice : List Char :=
        match lastIndexOfChar trimmed.data '}' with
        | some e =>
          if start < e then (trimmed.data.take e).drop start
          else trimmed.data.drop start
        | none => trimmed.data.drop start
      let v0 := (jsTrim ⟨slice⟩).data
      let v1 := stripTrailingCharWs v0 ','
      let v2 := match v1 with
        | '"' :: r => r
        | l => l
      let v3 := stripTrailingCharWs v2 '"'
      some (.obj [("id", .str id), ("output_text", .str ⟨v3⟩),
        ("parseMode", .str "line_split_fallback")])

/-- Source `coerceSingleObject`: a direct object extraction, or a one-element
array unwrapped to its sole object. -/
def coerceSingleObject (raw : String) : Option Json :=
  match extractJSONObject raw with
  | some o => some o
  | none =>
    match extractJSONArray raw with
    | some [Json.obj fs] => some (.obj fs)
    | _ => none

example : parseLooseObject "\x7b\"id\": \"7\", \"output\": \"hi\", \x7d" "f" =
    some (.obj [("id", .str "7"), ("output_text", .str "hi"),
      ("parseMode", .str "line_split_fallback")]) := rfl
example : parseLooseObject "no fields here" "f" = none := rfl
example : coerceSingleObject "[\x7b\"a\":1\x7d]" = some (.obj [("a", .num 1)]) := rfl
example : coerceSingleObject "[\x7b\"a\":1\x7d,\x7b\"b\":2\x7d]" = some (.obj [("a", .num 1)]) := rfl

/-- Queue item lifecycle states (shared/types.ts `QueueStatus`). -/
inductive QueueStatus where
  | pending
  | inflight
  | done
  | error
deriving DecidableEq

/-- Chat surfaces (shared/types.ts `TargetSite`). -/
inductive TargetSite where
  | gemini
  | chatgpt
deriving DecidableEq

/-- `TargetSite` extended with `auto` (shared/types.ts `AutoTarget`). -/
inductive AutoTarget where
  | auto
  | gemini
  | chatgpt
deriving DecidableEq

/-- Normalized sample (shared/types.ts `Sample`; the optional metadata plays
no role in the claims). -/
structure Sample where
  id : String
  text : String

/-- One sample awaiting labeling (shared/types.ts `QueueItem`).  `lastError`
is a JavaScript value at runtime, hence `Option Json` with `none` for
`null`/absent. -/
structure QueueItem where
  id : String
  seq : Nat
  prompt : String
  sample : Sample
  status : QueueStatus
  target : AutoTarget
  retries : Nat
  lastError : Option Json
  createdAt : Nat
  updatedAt : Nat

/-- Outcome of one dispatch (shared/types.ts `ResultRecord`). -/
structure ResultRecord where
  id : String
  sampleId : String
  rawResponse : String
  parsed : Json
  ok : Bool
  error : Option Json
  target : TargetSite
  createdAt : Nat

/-- Source `buildBatchPrompt`: trimmed instruction prompt plus a blank-line
separator when non-empty, then the items' trimmed non-empty prompts joined by
single newlines in input order. -/
def buildBatchPrompt (items : List QueueItem) (prompt : String) : String :=
  let trimmedPrompt := jsTrim prompt
  let promptHead := if trimmedPrompt = "" then "" else trimmedPrompt ++ "\n\n"
  let body := String.intercalate "\n"
    ((items.map (fun item => jsTrim item.prompt)).filter (fun s => s ≠ ""))
  promptHead ++ body

/-- The fallback id of an item: `item.sample.id || item.id`. -/
def itemFid (item : QueueItem) : String :=
  jsOrStr item.sample.id item.id

/-- Source `buildBatchLevelParsed`: the parsed payload of a batch-level
outcome — best-effort single `output_text`, the `batch_level_output` parse
mode, input/output counts (`outputCount` is `undefined` for a non-object
candidate), and the covered sample ids in dispatch order. -/
def buildBatchLevelParsed (raw : String) (items : List QueueItem)
    (candidate : Json) : Json :=
  let cleaned := unwrapJsonish raw
  let outputCount : Json :=
    match candidate with
    | .arr xs => .num xs.length
    | .obj _ => .num 1
    | _ => .undef
  let output_text : String :=
    match candidate with
    | .arr [Json.obj fs] => (extractOutputText (.obj fs)).getD cleaned
    | .arr _ => cleaned
    | .obj _ => (extractOutputText candidate).getD cleaned
    | _ => cleaned
  .obj [("output_text", .str output_text),
        ("parseMode", .str "batch_level_output"),
        ("inputCount", .num items.length),
        ("outputCount", outputCount),
        ("sampleIds", .arr (items.map (fun item => .str (itemFid item))))]

/-- Result shape of source `parseSingleResponse`. -/
structure SingleParse where
  ok : Bool
  parsed : Json

/-- Source `parseSingleResponse`: coerce to one object and read its `ok`
flag; otherwise fall back to the first raw entry through `parseLooseObject`;
otherwise an explicit `parse_failed` marker carrying the raw text. -/
def parseSingleResponse (raw : String) (item : QueueItem) : SingleParse :=
  match coerceSingleObject raw with
  | none =>
    (match extractRawObjectEntries raw with
     | some (fe :: _) =>
       let fallback := (parseLooseObject fe (itemFid item)).getD
         (.obj [("id", .str (itemFid item)), ("output_text", .str fe),
           ("parseMode", .str "line_split_fallback")])
       { ok := true, parsed := normalizeParsed fallback (itemFid item) }
     | _ => { ok := false, parsed := .obj [("error", .str "parse_failed"), ("raw", .str raw)] })
  | some o => { ok := okOf o, parsed := normalizeParsed o (itemFid item) }

/-- One reconciled entry of a per-item batch outcome (source
`BatchParseEntry`). -/
structure BatchParseEntry where
  item : QueueItem
  ok : Bool
  parsed : Json
  raw : String

/-- Result of source `parseBatchResponse` (the source's `batch_level` variant
also carries a constant `ok: true`, omitted here). -/
inductive BatchParseResult where
  | per_item (entries : List BatchParseEntry)
  | batch_level (parsed : Json) (raw : String)

/-- Last-wins keyed lookup, the model of filling a `Map` by iteration with
`set` and reading it back with `get`. -/
def byKeyLast {α : Type} (key : α → Option String) (xs : List α) (k : String) :
    Option α :=
  xs.foldl
    (fun acc x =>
      match key x with
      | some k' => if k' = k then some x else acc
      | none => acc)
    none

/-- Key under which an array entry is registered:
`entry?.id ?? entry?.sampleId ?? entry?.sample_id`, stringified, registered
only when non-nullish. -/
def arrayEntryKey (e : Json) : Option String :=
  (e.nnGet "id" <|> e.nnGet "sampleId" <|> e.nnGet "sample_id").map jsToString

/-- The entry picked for one item in the array tier:
`byId.get(String(fallbackId)) ?? payload[idx]`. -/
def arrayPick (payload : List Json) (fid : String) (idx : Nat) : Option Json :=
  byKeyLast arrayEntryKey payload fid <|> payload.get? idx

/-- The `missing_result_for_id` error entry of the array tier. -/
def mkMissingEntry (item : QueueItem) (fid raw : String) : BatchParseEntry :=
  { item := item, ok := false,
    parsed := .obj [("error", .str "missing_result_for_id"), ("id", .str fid),
      ("raw", .str raw)],
    raw := raw }

/-- One item's entry in the array tier: the picked entry normalized when
truthy, else the missing marker. -/
def arrayTierEntry (payload : List Json) (raw : String) (idx : Nat)
    (item : QueueItem) : BatchParseEntry :=
  let fid := itemFid item
  match arrayPick payload fid idx with
  | some v =>
    if v.jsTruthy then
      { item := item, ok := true, parsed := normalizeParsed v fid,
        raw := jsonStringify v }
    else mkMissingEntry item fid raw
  | none => mkMissingEntry item fid raw

/-- Indexed map over the batch items (`items.map((item, idx) => ...)`). -/
def entriesWithIdx (f : Nat → QueueItem → BatchParseEntry) :
    List QueueItem → Nat → List BatchParseEntry
  | [], _ => []
  | item :: rest, idx => f idx item :: entriesWithIdx f rest (idx + 1)

/-- Array tier of source `parseBatchResponse`: count-mismatch downgrade under
`allowCountMismatch`, id-then-positional mapping, missing-entry downgrade
under `allowCountMismatch`, else per-item entries. -/
def arrayTier (raw : String) (payload : List Json) (items : List QueueItem)
    (allowCountMismatch : Bool) : BatchParseResult :=
  if allowCountMismatch && payload.length != items.length then
    .batch_level (buildBatchLevelParsed raw items (.arr payload)) raw
  else
    let entries := entriesWithIdx (arrayTierEntry payload raw) items 0
    if allowCountMismatch && entries.any (fun e => !e.ok) then
      .batch_level (buildBatchLevelParsed raw items (.arr payload)) raw
    else .per_item entries

/-- One item's entry in the loose-object tier:
`looseObjects[idx] || looseObjects[0]`, with the entry's own `ok` flag. -/
def looseTierEntry (loose : List Json) (idx : Nat) (item : QueueItem) :
    BatchParseEntry :=
  let entry :=
    match loose.get? idx with
    | some v => if v.jsTruthy then v else loose.headD .undef
    | none => loose.headD .undef
  { item := item, ok := okOf entry,
    parsed := normalizeParsed entry (itemFid item), raw := jsonStringify entry }

/-- Loose-object tier of source `parseBatchResponse`. -/
def looseTier (raw : String) (loose : List Json) (items : List QueueItem)
    (allowCountMismatch : Bool) : BatchParseResult :=
  if allowCountMismatch && loose.length != items.length then
    .batch_level (buildBatchLevelParsed raw items (.arr loose)) raw
  else .per_item (entriesWithIdx (looseTierEntry loose) items 0)

/-- Fallback id for the line-split tier's loose parse:
`items[idx]?.sample.id || items[idx]?.id || ""`. -/
def itemFidAt (items : List QueueItem) (idx : Nat) : String :=
  match items.get? idx with
  | some item => jsOrStr (jsOrStr item.sample.id item.id) ""
  | none => ""

/-- The `{ raw, obj }` pairs of the line-split tier. -/
def fallbackObjectsOf (items : List QueueItem) :
    List String → Nat → List (String × Option Json)
  | [], _ => []
  | fe :: rest, idx =>
    (fe, parseLooseObject fe (itemFidAt items idx)) ::
      fallbackObjectsOf items rest (idx + 1)

/-- Key of a line-split pair: `entry.obj?.id`, registered only when truthy. -/
def looseEntryKey (p : String × Option Json) : Option String :=
  match p.2 with
  | some o =>
    (match o.jsGet "id" with
     | some v => if v.jsTruthy then some (jsToString v) else none
     | none => none)
  | none => none

/-- One item's entry in the line-split tier. -/
def fallbackTierEntry (fobjs : List (String × Option Json)) (raw : String)
    (idx : Nat) (item : QueueItem) : BatchParseEntry :=
  let fid := itemFid item
  match byKeyLast looseEntryKey fobjs fid <|> fobjs.get? idx with
  | none =>
    { item := item, ok := false,
      parsed := .obj [("error", .str "line_split_missing_entry"), ("raw", .str raw)],
      raw := raw }
  | some p =>
    let parsedEntry := p.2.getD
      (.obj [("id", .str fid), ("output_text", .str p.1),
        ("parseMode", .str "line_split_fallback")])
    { item := item, ok := true, parsed := normalizeParsed parsedEntry fid,
      raw := p.1 }

/-- Line-split tier of source `parseBatchResponse`. -/
def fallbackTier (raw : String) (fes : List String) (items : List QueueItem)
    (allowCountMismatch : Bool) : BatchParseResult :=
  if allowCountMismatch && fes.length != items.length then
    .batch_level (buildBatchLevelParsed raw items (.arr (fes.map .str))) raw
  else
    let entries := entriesWithIdx (fallbackTierEntry (fallbackObjectsOf items fes 0) raw) items 0
    if allowCountMismatch && entries.any (fun e => !e.ok) then
      .batch_level (buildBatchLevelParsed raw items (.arr (fes.map .str))) raw
    else .per_item entries

/-- Final branch of source `parseBatchResponse` when no tier produced any
structure. -/
def noneTier (raw : String) (items : List QueueItem)
    (allowCountMismatch : Bool) : BatchParseResult :=
  if allowCountMismatch then
    .batch_level (buildBatchLevelParsed raw items .null) raw
  else
    .per_item (items.map (fun item =>
      { item := item, ok := false,
        parsed := .obj [("error", .str "batch_parse_failed"), ("raw", .str raw)],
        raw := raw }))

/-- Source `parseBatchResponse`: the tiers in source order, each triggered by
its extractor succeeding. -/
def parseBatchResponse (raw : String) (items : List QueueItem)
    (allowCountMismatch : Bool) : BatchParseResult :=
  match extractJSONArray raw with
  | some payload => arrayTier raw payload items allowCountMismatch
  | none =>
    match extractObjectList raw with
    | some loose => looseTier raw loose items allowCountMismatch
    | none =>
      match extractRawObjectEntries raw with
      | some fes => fallbackTier raw fes items allowCountMismatch
      | none => noneTier raw items allowCountMismatch

/-- Status write applied to one queue item (`db.queue.update`). -/
structure QueueUpdate where
  itemId : String
  status : QueueStatus
  lastError : Option Json
  updatedAt : Nat

/-- JavaScript `a || b` on values. -/
def jsOrJson (a b : Json) : Json :=
  if a.jsTruthy then a else b

/-- The error reason of source `markResult`:
`!ok && parsed ? parsed.error || parsed.message || "parse_error" : null`. -/
def errorOfParsed (parsed : Json) (ok : Bool) : Option Json :=
  if ok then none
  else if parsed.jsTruthy then
    some (jsOrJson ((parsed.jsGet "error").getD .undef)
      (jsOrJson ((parsed.jsGet "message").getD .undef) (.str "parse_error")))
  else none

/-- Source `markResult` as a pure function of its inputs and the clock: the
ResultRecord written to `db.results` and the status update written to
`db.queue`. -/
def markResult (item : QueueItem) (rawResponse : String) (parsed : Json)
    (ok : Bool) (actualTarget : TargetSite) (now : Nat) :
    ResultRecord × QueueUpdate :=
  let error := errorOfParsed parsed ok
  ({ id := item.id, sampleId := itemFid item, rawResponse := rawResponse,
     parsed := parsed, ok := ok, error := error, target := actualTarget,
     createdAt := now },
   { itemId := item.id, status := if ok then .done else .error,
     lastError := error, updatedAt := now })

/-- The store writes of one settled dispatch. -/
structure DispatchOutcome where
  records : List ResultRecord
  updates : List QueueUpdate

/-- Source `markBatchResult` as a pure function (the generated
`batch-...` id is passed in): one ResultRecord whose `sampleId` equals its
own id, and a `done` status write for every covered item. -/
def markBatchResult (items : List QueueItem) (rawResponse : String)
    (parsed : Json) (actualTarget : TargetSite) (now : Nat)
    (batchId : String) : DispatchOutcome :=
  let batchRec : ResultRecord :=
    { id := batchId, sampleId := batchId, rawResponse := rawResponse,
      parsed := parsed, ok := true, error := none, target := actualTarget,
      createdAt := now }
  { records := [batchRec],
    updates := items.map (fun item =>
      { itemId := item.id, status := .done, lastError := none, updatedAt := now }) }

/-- The reply-settling portion of source `processOne` (after the driver
returned a reply): route to the single-item or multi-item path and collect
the store writes. -/
def processReply (items : List QueueItem) (reply : String)
    (allowCountMismatch : Bool) (target : TargetSite) (now : Nat)
    (batchId : String) : DispatchOutcome :=
  match items with
  | [item] =>
    let pr := parseSingleResponse reply item
    let m := markResult item reply pr.parsed pr.ok target now
    { records := [m.1], updates := [m.2] }
  | _ =>
    match parseBatchResponse reply items allowCountMismatch with
    | .batch_level parsed raw => markBatchResult items raw parsed target now batchId
    | .per_item entries =>
      { records := entries.map (fun e => (markResult e.item e.raw e.parsed e.ok target now).1),
        updates := entries.map (fun e => (markResult e.item e.raw e.parsed e.ok target now).2) }

/-- Source `reconcileInflightItems`, per item: an inflight item adopts the
outcome of an existing ResultRecord for its id, or returns to pending with
the recovery reason and an incremented retry count; other items are
untouched. -/
def recoverItem (results : String → Option ResultRecord) (now : Nat)
    (item : QueueItem) : QueueItem :=
  if item.status = .inflight then
    match results item.id with
    | some r =>
      { item with
          status := if r.ok then .done else .error,
          lastError := r.error,
          updatedAt := now }
    | none =>
      { item with
          status := .pending,
          lastError := some (.str "recovered_after_pause_or_restart"),
          retries := item.retries + 1,
          updatedAt := now }
  else item

/-- Source `reconcileInflightItems` over the whole queue (the store query
selects the inflight items; modelled by the per-item guard). -/
def reconcileInflightItems (results : String → Option ResultRecord)
    (now : Nat) (queue : List QueueItem) : List QueueItem :=
  queue.map (recoverItem results now)

/-- Lookup after assigning the same key yields the assigned value. -/
theorem lookup_setField_self (fields : List (String × Json)) (k : String) (v : Json) :
    (setField fields k v).lookup k = some v := by
  induction fields with
  | nil => simp [setField, List.lookup]
  | cons hd tl ih =>
    obtain ⟨k', v'⟩ := hd
    by_cases h : k' = k
    · subst h
      simp [setField, List.lookup]
    · have hb : (k == k') = false := by simp [Ne.symm h]
      simp [setField, h, List.lookup, hb, ih]

/-- Lookup of a different key is unchanged by an assignment. -/
theorem lookup_setField_ne (fields : List (String × Json)) (k k' : String) (v : Json)
    (h : k ≠ k') : (setField fields k' v).lookup k = fields.lookup k := by
  induction fields with
  | nil =>
    have hb : (k == k') = false := by simp [h]
    simp [setField, List.lookup, hb]
  | cons hd tl ih =>
    obtain ⟨k0, v0⟩ := hd
    by_cases h0 : k0 = k'
    · subst h0
      have hb : (k == k0) = false := by simp [h]
      simp [setField, List.lookup, hb]
    · by_cases h1 : k = k0
      · subst h1
        simp [setField, h0, List.lookup]
      · have hb : (k == k0) = false := by simp [h1]
        simp [setField, h0, List.lookup, hb, ih]

/-- Assigning a key its current first-bound value leaves the list unchanged. -/
theorem setField_eq_of_lookup (fields : List (String × Json)) (k : String) (v : Json)
    (h : fields.lookup k = some v) : setField fields k v = fields := by
  induction fields with
  | nil => simp [List.lookup] at h
  | cons hd tl ih =>
    obtain ⟨k0, v0⟩ := hd
    by_cases h0 : k0 = k
    · subst h0
      simp [List.lookup] at h
      simp [setField, h]
    · have hb : (k == k0) = false := by simp [Ne.symm h0]
      simp [List.lookup, hb] at h
      simp [setField, h0, ih h]

/-- Unpacking of a successful nullish-guarded property access. -/
theorem nnGet_elim {j : Json} {k : String} {v : Json} (h : j.nnGet k = some v) :
    j.jsGet k = some v ∧ v.isNullish = false := by
  unfold Json.nnGet at h
  cases hg : j.jsGet k with
  | none => rw [hg] at h; exact absurd h (by simp)
  | some w =>
    rw [hg] at h
    by_cases hw : w.isNullish
    · simp [hw] at h
    · simp [hw] at h
      subst h
      exact ⟨rfl, by simpa using hw⟩

/-- Packaging of a nullish-guarded property access. -/
theorem nnGet_intro {j : Json} {k : String} {v : Json} (h1 : j.jsGet k = some v)
    (h2 : v.isNullish = false) : j.nnGet k = some v := by
  unfold Json.nnGet
  rw [h1]
  simp [h2]

/-- Propagation of non-nullishness through an option chain. -/
theorem orElse_not_nullish {a b : Option Json}
    (ha : ∀ w, a = some w → w.isNullish = false)
    (hb : ∀ w, b = some w → w.isNullish = false) :
    ∀ w, (a <|> b) = some w → w.isNullish = false := by
  intro w hw
  rcases (Option.orElse_eq_some _ _ _).mp hw with h | ⟨_, h⟩
  · exact ha w h
  · exact hb w h

/-- Non-nullishness of anything a guarded access yields. -/
theorem nnGet_not_nullish (j : Json) (k : String) :
    ∀ w, j.nnGet k = some w → w.isNullish = false :=
  fun _ h => (nnGet_elim h).2

/-- Non-nullishness of a chain capped by a non-nullish default. -/
theorem chain_not_nullish {o : Option Json} {d : Json}
    (ho : ∀ v, o = some v → v.isNullish = false) (hd : d.isNullish = false) :
    (o.getD d).isNullish = false := by
  cases o with
  | none => simpa using hd
  | some v => simpa using ho v rfl

/-- The value normalization binds to `id`. -/
def normIdVal (entry : Json) (fid : String) : Json :=
  (entry.nnGet "id" <|> entry.nnGet "sampleId" <|> entry.nnGet "sample_id").getD
    (Json.str fid)

/-- The value normalization binds to `output_text`. -/
def normOtVal (entry : Json) : Json :=
  (entry.nnGet "output_text" <|> entry.nnGet "output" <|>
    entry.nnGet "text" <|> entry.nnGet "completion").getD (Json.str "")

/-- Unfolding of `normalizeParsed` through the two named values. -/
theorem normalizeParsed_def (entry : Json) (fid : String) :
    normalizeParsed entry fid =
      .obj (setField (setField (spreadFields entry) "id" (normIdVal entry fid))
        "output_text" (normOtVal entry)) := rfl

/-- The bound id value is never nullish. -/
theorem normIdVal_not_nullish (entry : Json) (fid : String) :
    (normIdVal entry fid).isNullish = false := by
  unfold normIdVal
  exact chain_not_nullish
    (orElse_not_nullish (nnGet_not_nullish _ _)
      (orElse_not_nullish (nnGet_not_nullish _ _) (nnGet_not_nullish _ _)))
    rfl

/-- The bound output text value is never nullish. -/
theorem normOtVal_not_nullish (entry : Json) :
    (normOtVal entry).isNullish = false := by
  unfold normOtVal
  exact chain_not_nullish
    (orElse_not_nullish (nnGet_not_nullish _ _)
      (orElse_not_nullish (nnGet_not_nullish _ _)
        (orElse_not_nullish (nnGet_not_nullish _ _) (nnGet_not_nullish _ _))))
    rfl

/-- The normalized entry carries the bound id under `id`. -/
theorem normalizeParsed_jsGet_id (entry : Json) (fid : String) :
    (normalizeParsed entry fid).jsGet "id" = some (normIdVal entry fid) := by
  rw [normalizeParsed_def]
  simp only [Json.jsGet]
  rw [lookup_setField_ne _ _ _ _ (by decide), lookup_setField_self]

/-- The normalized entry carries the bound output text under `output_text`. -/
theorem normalizeParsed_jsGet_ot (entry : Json) (fid : String) :
    (normalizeParsed entry fid).jsGet "output_text" = some (normOtVal entry) := by
  rw [normalizeParsed_def]
  simp only [Json.jsGet]
  rw [lookup_setField_self]

/-- An object already carrying non-nullish `id` and `output_text` bindings is
a fixed point of normalization. -/
theorem normalizeParsed_fixpoint (fs : List (String × Json)) (fid : String)
    (hid : ∃ v, fs.lookup "id" = some v ∧ v.isNullish = false)
    (hot : ∃ w, fs.lookup "output_text" = some w ∧ w.isNullish = false) :
    normalizeParsed (.obj fs) fid = .obj fs := by
  obtain ⟨v, hv, hvn⟩ := hid
  obtain ⟨w, hw, hwn⟩ := hot
  have hnn_id : (Json.obj fs).nnGet "id" = some v :=
    nnGet_intro (by simpa [Json.jsGet] using hv) hvn
  have hnn_ot : (Json.obj fs).nnGet "output_text" = some w :=
    nnGet_intro (by simpa [Json.jsGet] using hw) hwn
  have h1 : normIdVal (.obj fs) fid = v := by
    unfold normIdVal
    rw [hnn_id]
    rfl
  have h2 : normOtVal (.obj fs) = w := by
    unfold normOtVal
    rw [hnn_ot]
    rfl
  rw [normalizeParsed_def, h1, h2]
  simp only [spreadFields]
  rw [setField_eq_of_lookup _ _ _ hv, setField_eq_of_lookup _ _ _ hw]

/-- Whether a value is a plain object. -/
def Json.isObj : Json → Bool
  | .obj _ => true
  | _ => false

/-- An already-normalized entry: an object on which the id chain and the
output-text chain both find a (non-nullish) value, so renormalization has
nothing to rebind. -/
def isNormalizedEntry (e : Json) : Bool :=
  e.isObj && (e.nnGet "id").isSome && (e.nnGet "output_text").isSome

/-- Spec §4.1 wording of the Prompt Composer contract, for comparison with
the source translation `buildBatchPrompt`: the trimmed instruction prompt
followed by two newlines when non-empty (nothing otherwise), concatenated
with the items' trimmed prompt fields, empty ones filtered out, joined by a
single newline, in input order. -/
def composeSpec (items : List QueueItem) (instructionPrompt : String) : String :=
  (if jsTrim instructionPrompt ≠ "" then jsTrim instructionPrompt ++ "\n\n" else "") ++
    String.intercalate "\n"
      ((items.map (fun item => jsTrim item.prompt)).filter (fun s => s ≠ ""))

/-- C7: for every ordered list of QueueItems and every instruction prompt,
`buildBatchPrompt` returns exactly the spec's composition: trimmed prompt
plus two newlines when non-empty, then the items' trimmed non-empty prompt
fields joined by single newlines in input order; it is a pure function of
its arguments. -/
theorem buildBatchPrompt_matches_spec (items : List QueueItem) (p : String) :
    buildBatchPrompt items p = composeSpec items p := by
  unfold buildBatchPrompt composeSpec
  by_cases h : jsTrim p = "" <;> simp [h]

/-- C8: entry normalization is total — on every entry and fallback id it
yields an object carrying both `id` and `output_text` — and idempotent:
renormalizing any normalization output (with any fallback id) is the
identity, and any entry already carrying both fields is a fixed point. -/
theorem normalizeParsed_total_and_idempotent (entry : Json) (fid fid' : String) :
    isNormalizedEntry (normalizeParsed entry fid) = true ∧
    normalizeParsed (normalizeParsed entry fid) fid' = normalizeParsed entry fid ∧
    (isNormalizedEntry entry = true → normalizeParsed entry fid' = entry) := by
  refine ⟨?_, ?_, ?_⟩
  · have hid := nnGet_intro (normalizeParsed_jsGet_id entry fid)
      (normIdVal_not_nullish entry fid)
    have hot := nnGet_intro (normalizeParsed_jsGet_ot entry fid)
      (normOtVal_not_nullish entry)
    unfold isNormalizedEntry
    rw [hid, hot, normalizeParsed_def]
    simp [Json.isObj]
  · have fix := normalizeParsed_fixpoint
      (setField (setField (spreadFields entry) "id" (normIdVal entry fid))
        "output_text" (normOtVal entry)) fid'
      ⟨normIdVal entry fid,
        by rw [lookup_setField_ne _ _ _ _ (by decide), lookup_setField_self],
        normIdVal_not_nullish entry fid⟩
      ⟨normOtVal entry, by rw [lookup_setField_self], normOtVal_not_nullish entry⟩
    rw [normalizeParsed_def entry fid]
    exact fix
  · intro h
    obtain ⟨fs, rfl⟩ : ∃ fs, entry = Json.obj fs := by
      cases entry <;> simp_all [isNormalizedEntry, Json.isObj]
    unfold isNormalizedEntry at h
    simp only [Bool.and_eq_true] at h
    obtain ⟨⟨-, h1⟩, h2⟩ := h
    rw [Option.isSome_iff_exists] at h1 h2
    obtain ⟨v, hv⟩ := h1
    obtain ⟨w, hw⟩ := h2
    exact normalizeParsed_fixpoint fs fid'
      ⟨v, (nnGet_elim hv).1, (nnGet_elim hv).2⟩
      ⟨w, (nnGet_elim hw).1, (nnGet_elim hw).2⟩

/-- Witness for C8: a concrete already-normalized entry is left unchanged. -/
theorem normalizeParsed_total_and_idempotent_witness :
    isNormalizedEntry (Json.obj [("id", .str "3"), ("output_text", .str "x"),
      ("k", .num 1)]) = true ∧
    normalizeParsed (Json.obj [("id", .str "3"), ("output_text", .str "x"),
      ("k", .num 1)]) "f" =
      Json.obj [("id", .str "3"), ("output_text", .str "x"), ("k", .num 1)] := by
  have h := normalizeParsed_total_and_idempotent
    (Json.obj [("id", .str "3"), ("output_text", .str "x"), ("k", .num 1)]) "f" "f"
  exact ⟨rfl, h.2.2 rfl⟩

/-- C10: normalization only rebinds `id` and `output_text` — on every entry
object, the result agrees with the input on every other key. -/
theorem normalizeParsed_frame (fs : List (String × Json)) (fid k : String)
    (h1 : k ≠ "id") (h2 : k ≠ "output_text") :
    (normalizeParsed (.obj fs) fid).jsGet k = (Json.obj fs).jsGet k := by
  rw [normalizeParsed_def]
  simp only [Json.jsGet, spreadFields]
  rw [lookup_setField_ne _ _ _ _ h2, lookup_setField_ne _ _ _ _ h1]

/-- Witness for C10: a concrete unrelated key survives normalization with its
value. -/
theorem normalizeParsed_frame_witness :
    ("meta" ≠ "id") ∧ ("meta" ≠ "output_text") ∧
    (normalizeParsed (Json.obj [("meta", .num 5)]) "f").jsGet "meta" =
      (Json.obj [("meta", .num 5)]).jsGet "meta" ∧
    (Json.obj [("meta", .num 5)]).jsGet "meta" = some (.num 5) :=
  ⟨by decide, by decide,
    normalizeParsed_frame [("meta", .num 5)] "f" "meta" (by decide) (by decide), rfl⟩

/-- Concrete queue item used by witnesses and counterexamples. -/
def demoQueueItem (sid own : String) (st : QueueStatus) : QueueItem :=
  { id := own, seq := 0, prompt := "p", sample := { id := sid, text := "t" },
    status := st, target := .auto, retries := 0, lastError := none,
    createdAt := 0, updatedAt := 0 }

/-- Concrete failed ResultRecord used by the recovery witness. -/
def demoRecBad : ResultRecord :=
  { id := "a", sampleId := "a", rawResponse := "", parsed := .null, ok := false,
    error := some (.str "x"), target := .gemini, createdAt := 0 }

/-- C5: recovery reconciles every inflight item — an existing ResultRecord's
outcome is adopted (`done` when `ok`, `error` when not, in particular an
`ok:false` record yields `error`, not `pending`), a missing record returns
the item to `pending` with the recovery reason and an incremented retry
count — and afterwards no item of the queue remains inflight. -/
theorem reconcileInflightItems_recovery (results : String → Option ResultRecord)
    (now : Nat) (queue : List QueueItem) (item : QueueItem) :
    (item.status = .inflight →
      (∀ r, results item.id = some r →
        (recoverItem results now item).status = (if r.ok then .done else .error)) ∧
      (results item.id = none →
        (recoverItem results now item).status = .pending ∧
        (recoverItem results now item).lastError =
          some (.str "recovered_after_pause_or_restart") ∧
        (recoverItem results now item).retries = item.retries + 1)) ∧
    (∀ j ∈ reconcileInflightItems results now queue, j.status ≠ .inflight) := by
  constructor
  · intro hst
    constructor
    · intro r hr
      simp [recoverItem, hst, hr]
    · intro hr
      simp [recoverItem, hst, hr]
  · intro j hj
    obtain ⟨i, hi, rfl⟩ := List.mem_map.mp hj
    unfold recoverItem
    by_cases hs : i.status = .inflight
    · rcases hres : results i.id with _ | r
      · simp [hs, hres]
      · by_cases hok : r.ok <;> simp [hs, hres, hok]
    · simp [hs]

/-- Witness for C5: an inflight item with a matching failed record becomes
`error`. -/
theorem reconcileInflightItems_recovery_witness :
    (demoQueueItem "a" "a" .inflight).status = .inflight ∧
    (fun i => if i = "a" then some demoRecBad else none)
      (demoQueueItem "a" "a" .inflight).id = some demoRecBad ∧
    (recoverItem (fun i => if i = "a" then some demoRecBad else none) 5
      (demoQueueItem "a" "a" .inflight)).status = .error := by
  have h := reconcileInflightItems_recovery
    (fun i => if i = "a" then some demoRecBad else none) 5
    [demoQueueItem "a" "a" .inflight] (demoQueueItem "a" "a" .inflight)
  refine ⟨rfl, rfl, ?_⟩
  exact (h.1 rfl).1 demoRecBad rfl

/-- C6: on a reply from which no extraction tier produces any entry, the
parse functions return explicit failure outcomes rather than failing: the
single-item path yields `ok = false` with a `parse_failed` payload carrying
the raw text, and the strict multi-item path records every item as a
`batch_parse_failed` error outcome.  (Both functions are total Lean
functions, so termination without exception is intrinsic.) -/
theorem parse_failure_explicit (raw : String) (item : QueueItem)
    (items : List QueueItem)
    (h1 : coerceSingleObject raw = none)
    (h2 : extractRawObjectEntries raw = none)
    (h3 : extractJSONArray raw = none)
    (h4 : extractObjectList raw = none) :
    parseSingleResponse raw item =
      { ok := false, parsed := .obj [("error", .str "parse_failed"), ("raw", .str raw)] } ∧
    parseBatchResponse raw items false =
      .per_item (items.map (fun it =>
        { item := it, ok := false,
          parsed := .obj [("error", .str "batch_parse_failed"), ("raw", .str raw)],
          raw := raw })) := by
  constructor
  · simp [parseSingleResponse, h1, h2]
  · simp [parseBatchResponse, h3, h4, h2, noneTier]

/-- Witness for C6: the empty reply defeats every tier and produces the
explicit failure outcomes for a two-item batch. -/
theorem parse_failure_explicit_witness :
    coerceSingleObject "" = none ∧ extractRawObjectEntries "" = none ∧
    extractJSONArray "" = none ∧ extractObjectList "" = none ∧
    (parseSingleResponse "" (demoQueueItem "1" "i1" .pending)).ok = false ∧
    parseBatchResponse ""
        [demoQueueItem "1" "i1" .pending, demoQueueItem "2" "i2" .pending] false =
      .per_item ([demoQueueItem "1" "i1" .pending,
          demoQueueItem "2" "i2" .pending].map (fun it =>
        { item := it, ok := false,
          parsed := .obj [("error", .str "batch_parse_failed"), ("raw", .str "")],
          raw := "" })) := by
  have h := parse_failure_explicit "" (demoQueueItem "1" "i1" .pending)
    [demoQueueItem "1" "i1" .pending, demoQueueItem "2" "i2" .pending]
    rfl rfl rfl rfl
  exact ⟨rfl, rfl, rfl, rfl, by rw [h.1], h.2⟩

/-- An indexed map over the items has the items' length. -/
theorem entriesWithIdx_length (f : Nat → QueueItem → BatchParseEntry) :
    ∀ (items : List QueueItem) (idx : Nat),
      (entriesWithIdx f items idx).length = items.length
  | [], _ => rfl
  | _ :: rest, idx => by
    simp [entriesWithIdx, entriesWithIdx_length f rest (idx + 1)]

/-- Per-item results of the array tier cover exactly the batch items. -/
theorem arrayTier_per_item_length {raw : String} {payload : List Json}
    {items : List QueueItem} {allow : Bool} {es : List BatchParseEntry}
    (h : arrayTier raw payload items allow = .per_item es) :
    es.length = items.length := by
  unfold arrayTier at h
  simp only [] at h
  split at h
  · simp at h
  · split at h
    · simp at h
    · injection h with h'
      rw [← h']
      exact entriesWithIdx_length _ items 0

/-- Per-item results of the loose-object tier cover exactly the batch
items. -/
theorem looseTier_per_item_length {raw : String} {loose : List Json}
    {items : List QueueItem} {allow : Bool} {es : List BatchParseEntry}
    (h : looseTier raw loose items allow = .per_item es) :
    es.length = items.length := by
  unfold looseTier at h
  split at h
  · simp at h
  · injection h with h'
    rw [← h']
    exact entriesWithIdx_length _ items 0

/-- Per-item results of the line-split tier cover exactly the batch items. -/
theorem fallbackTier_per_item_length {raw : String} {fes : List String}
    {items : List QueueItem} {allow : Bool} {es : List BatchParseEntry}
    (h : fallbackTier raw fes items allow = .per_item es) :
    es.length = items.length := by
  unfold fallbackTier at h
  simp only [] at h
  split at h
  · simp at h
  · split at h
    · simp at h
    · injection h with h'
      rw [← h']
      exact entriesWithIdx_length _ items 0

/-- Per-item results of the failure branch cover exactly the batch items. -/
theorem noneTier_per_item_length {raw : String} {items : List QueueItem}
    {allow : Bool} {es : List BatchParseEntry}
    (h : noneTier raw items allow = .per_item es) :
    es.length = items.length := by
  unfold noneTier at h
  split at h
  · simp at h
  · injection h with h'
    rw [← h']
    simp

/-- Every per-item reconciliation result has exactly one entry per batch
item. -/
theorem parseBatchResponse_per_item_length {raw : String}
    {items : List QueueItem} {allow : Bool} {es : List BatchParseEntry}
    (h : parseBatchResponse raw items allow = .per_item es) :
    es.length = items.length := by
  unfold parseBatchResponse at h
  rcases hA : extractJSONArray raw with _ | payload <;> rw [hA] at h
  · rcases hL : extractObjectList raw with _ | loose <;> rw [hL] at h
    · rcases hF : extractRawObjectEntries raw with _ | fes <;> rw [hF] at h
      · exact noneTier_per_item_length h
      · exact fallbackTier_per_item_length h
    · exact looseTier_per_item_length h
  · exact arrayTier_per_item_length h

/-- C3: for every settled batch reply — any batch size, parse tier and
output-count mode — the number of ResultRecords created is exactly
`items.length` (per-item mode) or exactly 1 (batch-level mode), never any
other count. -/
theorem resultRecord_count (items : List QueueItem) (reply : String)
    (allow : Bool) (target : TargetSite) (now : Nat) (batchId : String) :
    (processReply items reply allow target now batchId).records.length = items.length ∨
    (processReply items reply allow target now batchId).records.length = 1 := by
  rcases items with _ | ⟨a, _ | ⟨b, rest⟩⟩
  · rcases hp : parseBatchResponse reply [] allow with es | ⟨parsed, raw⟩
    · left
      have hlen := parseBatchResponse_per_item_length hp
      simp [processReply, hp, hlen]
    · right
      simp [processReply, hp, markBatchResult]
  · left
    simp [processReply]
  · rcases hp : parseBatchResponse reply (a :: b :: rest) allow with es | ⟨parsed, raw⟩
    · left
      have hlen := parseBatchResponse_per_item_length hp
      simp [processReply, hp, hlen]
    · right
      simp [processReply, hp, markBatchResult]

/-- Accumulator shift for the last-wins keyed fold: the accumulator only
surfaces when no later element matches. -/
theorem byKeyLast_shift {α : Type} (key : α → Option String) (k : String)
    (xs : List α) :
    ∀ acc : Option α,
      List.foldl (fun a x => match key x with
        | some k' => if k' = k then some x else a
        | none => a) acc xs =
      (List.foldl (fun a x => match key x with
        | some k' => if k' = k then some x else a
        | none => a) none xs).elim acc some := by
  induction xs with
  | nil => intro acc; rfl
  | cons x xs ih =>
    intro acc
    simp only [List.foldl_cons]
    rw [ih, ih (match key x with
      | some k' => if k' = k then some x else none
      | none => none)]
    rcases hfold : List.foldl (fun a x => match key x with
        | some k' => if k' = k then some x else a
        | none => a) none xs with _ | y
    · rw [hfold]
      simp only [Option.elim]
      rcases hx : key x with _ | k'
      · rfl
      · by_cases hk : k' = k <;> simp [hk]
    · rw [hfold]
      simp [Option.elim]

/-- Cons unfolding of the last-wins keyed lookup. -/
theorem byKeyLast_cons {α : Type} (key : α → Option String) (k : String)
    (x : α) (xs : List α) :
    byKeyLast key (x :: xs) k =
      (byKeyLast key xs k).elim
        (match key x with
         | some k' => if k' = k then some x else none
         | none => none) some := by
  unfold byKeyLast
  simp only [List.foldl_cons]
  exact byKeyLast_shift key k xs _

/-- When no element carries the key, the keyed lookup misses. -/
theorem byKeyLast_eq_none {α : Type} {key : α → Option String} {k : String}
    {xs : List α} (h : ∀ x ∈ xs, key x ≠ some k) :
    byKeyLast key xs k = none := by
  induction xs with
  | nil => rfl
  | cons x xs ih =>
    rw [byKeyLast_cons, ih (fun y hy => h y (List.mem_cons_of_mem x hy))]
    simp only [Option.elim]
    rcases hx : key x with _ | k'
    · rfl
    · have hne := h x (List.mem_cons_self x xs)
      rw [hx] at hne
      have : ¬ k' = k := fun hk => hne (by rw [hk])
      simp [this]

/-- Whatever the keyed lookup returns is an element carrying the key. -/
theorem byKeyLast_mem_key {α : Type} {key : α → Option String} {k : String}
    {xs : List α} {y : α} (h : byKeyLast key xs k = some y) :
    y ∈ xs ∧ key y = some k := by
  induction xs with
  | nil => simp [byKeyLast] at h
  | cons x xs ih =>
    rw [byKeyLast_cons] at h
    rcases ht : byKeyLast key xs k with _ | z
    · rw [ht] at h
      simp only [Option.elim] at h
      rcases hx : key x with _ | k'
      · rw [hx] at h
        cases h
      · rw [hx] at h
        by_cases hk : k' = k
        · simp only [hk, if_true] at h
          injection h with h'
          subst h'
          exact ⟨List.mem_cons_self x xs, by rw [hx, hk]⟩
        · simp [hk] at h
    · rw [ht] at h
      simp only [Option.elim] at h
      injection h with h'
      subst h'
      exact ⟨List.mem_cons_of_mem x (ih ht).1, (ih ht).2⟩

/-- When some element carries the key, the keyed lookup hits. -/
theorem byKeyLast_isSome {α : Type} {key : α → Option String} {k : String}
    {xs : List α} {x : α} (hx : x ∈ xs) (hk : key x = some k) :
    (byKeyLast key xs k).isSome = true := by
  induction xs with
  | nil => cases hx
  | cons z xs ih =>
    rw [byKeyLast_cons]
    rcases ht : byKeyLast key xs k with _ | y
    · simp only [Option.elim]
      rcases List.mem_cons.mp hx with rfl | hmem
      · rw [hk]
        simp
      · have := ih hmem
        rw [ht] at this
        simp at this
    · simp

/-- The indexed entry list projects through `get?`. -/
theorem entriesWithIdx_get? (f : Nat → QueueItem → BatchParseEntry) :
    ∀ (items : List QueueItem) (j idx : Nat) (item : QueueItem),
      items.get? idx = some item →
      (entriesWithIdx f items j).get? idx = some (f (j + idx) item) := by
  intro items
  induction items with
  | nil =>
    intro j idx item h
    simp [List.get?] at h
  | cons a items ih =>
    intro j idx item h
    cases idx with
    | zero =>
      simp only [List.get?] at h
      injection h with h'
      subst h'
      simp [entriesWithIdx, List.get?]
    | succ n =>
      simp only [List.get?] at h
      have := ih (j + 1) n item h
      simp only [entriesWithIdx, List.get?]
      rw [this, Nat.add_comm j (n + 1), Nat.add_comm (j + 1) n]
      simp [Nat.add_assoc, Nat.add_comm 1 j]

/-- C4: in the array tier, the entry reconciled with each item is
`arrayTierEntry` at the item's position, whose pick is primarily by id — if
any array entry's stringified `id`/`sampleId`/`sample_id` equals the item's
fallback id (`sample.id || item.id`), the pick is such an entry — and
positional (`payload[idx]`) exactly when no entry carries that id. -/
theorem arrayTier_mapping (payload : List Json) (raw : String)
    (items : List QueueItem) (idx : Nat) (item : QueueItem)
    (hitem : items.get? idx = some item) :
    (entriesWithIdx (arrayTierEntry payload raw) items 0).get? idx =
      some (arrayTierEntry payload raw idx item) ∧
    ((∃ e ∈ payload, arrayEntryKey e = some (itemFid item)) →
      ∃ e, e ∈ payload ∧ arrayEntryKey e = some (itemFid item) ∧
        arrayPick payload (itemFid item) idx = some e) ∧
    ((∀ e ∈ payload, arrayEntryKey e ≠ some (itemFid item)) →
      arrayPick payload (itemFid item) idx = payload.get? idx) := by
  refine ⟨?_, ?_, ?_⟩
  · have := entriesWithIdx_get? (arrayTierEntry payload raw) items 0 idx item hitem
    simpa using this
  · rintro ⟨e, he, hke⟩
    have hs := byKeyLast_isSome he hke
    rcases hy : byKeyLast arrayEntryKey payload (itemFid item) with _ | y
    · rw [hy] at hs
      simp at hs
    · have hmk := byKeyLast_mem_key hy
      refine ⟨y, hmk.1, hmk.2, ?_⟩
      unfold arrayPick
      rw [hy]
      rfl
  · intro hall
    unfold arrayPick
    rw [byKeyLast_eq_none hall]
    rfl

/-- Witness for C4: with no id match the pick is positional. -/
theorem arrayTier_mapping_witness :
    ([demoQueueItem "1" "i1" .pending].get? 0 =
      some (demoQueueItem "1" "i1" .pending)) ∧
    (∀ e ∈ [Json.obj [("id", Json.str "2")]],
      arrayEntryKey e ≠ some (itemFid (demoQueueItem "1" "i1" .pending))) ∧
    arrayPick [Json.obj [("id", Json.str "2")]]
        (itemFid (demoQueueItem "1" "i1" .pending)) 0 =
      [Json.obj [("id", Json.str "2")]].get? 0 := by
  have h := arrayTier_mapping [Json.obj [("id", Json.str "2")]] "r"
    [demoQueueItem "1" "i1" .pending] 0 (demoQueueItem "1" "i1" .pending) rfl
  refine ⟨rfl, by decide, h.2.2 (by decide)⟩

/-- C2: under `allowCountMismatch`, a multi-item batch whose extracted JSON
array has the wrong length — or leaves some item unmapped — settles as a
single batch-level outcome: `parseBatchResponse` downgrades, exactly one
ResultRecord is created, its parsed payload carries
`parseMode: "batch_level_output"` and the covered sample ids in dispatch
order, and every covered item's status write is `done`, never `error`. -/
theorem allow_mismatch_batch_level (items : List QueueItem) (raw : String)
    (payload : List Json) (t : TargetSite) (now : Nat) (bid : String)
    (hlen : 2 ≤ items.length)
    (hx : extractJSONArray raw = some payload)
    (hm : payload.length ≠ items.length ∨
      (entriesWithIdx (arrayTierEntry payload raw) items 0).any (fun e => !e.ok) = true) :
    parseBatchResponse raw items true =
      .batch_level (buildBatchLevelParsed raw items (.arr payload)) raw ∧
    processReply items raw true t now bid =
      markBatchResult items raw (buildBatchLevelParsed raw items (.arr payload)) t now bid ∧
    (processReply items raw true t now bid).records.length = 1 ∧
    (buildBatchLevelParsed raw items (.arr payload)).jsGet "parseMode" =
      some (.str "batch_level_output") ∧
    (buildBatchLevelParsed raw items (.arr payload)).jsGet "sampleIds" =
      some (.arr (items.map (fun item => .str (itemFid item)))) ∧
    (processReply items raw true t now bid).updates =
      items.map (fun item =>
        { itemId := item.id, status := QueueStatus.done, lastError := none,
          updatedAt := now }) ∧
    (∀ u ∈ (processReply items raw true t now bid).updates, u.status = .done) := by
  have hpb : parseBatchResponse raw items true =
      .batch_level (buildBatchLevelParsed raw items (.arr payload)) raw := by
    have h1 : parseBatchResponse raw items true = arrayTier raw payload items true := by
      unfold parseBatchResponse
      rw [hx]
    rw [h1]
    unfold arrayTier
    by_cases hL : payload.length = items.length
    · rcases hm with hm | hm
      · exact absurd hL hm
      · have hc : (true && payload.length != items.length) = false := by simp [hL]
        rw [if_neg (by simp [hc])]
        simp only []
        rw [if_pos (by simp [hm])]
    · have hc : (true && payload.length != items.length) = true := by
        simp [bne_iff_ne]
        exact hL
      rw [if_pos hc]
  have hpr : processReply items raw true t now bid =
      markBatchResult items raw (buildBatchLevelParsed raw items (.arr payload)) t now bid := by
    rcases items with _ | ⟨a, _ | ⟨b, rest⟩⟩
    · simp at hlen
    · simp at hlen
    · simp only [processReply]
      rw [hpb]
  refine ⟨hpb, hpr, ?_, rfl, rfl, ?_, ?_⟩
  · rw [hpr]
    rfl
  · rw [hpr]
    rfl
  · rw [hpr]
    intro u hu
    obtain ⟨i, hi, rfl⟩ := List.mem_map.mp hu
    rfl

/-- Concrete three-item batch used by the scenario theorems. -/
def itemsThree : List QueueItem :=
  [demoQueueItem "1" "i1" .pending, demoQueueItem "2" "i2" .pending,
    demoQueueItem "3" "i3" .pending]

/-- Concrete reply: a 2-element JSON array covering ids 1 and 3. -/
def rawTwoEntries : String :=
  "[\x7b\"id\":\"1\",\"output_text\":\"a\"\x7d,\x7b\"id\":\"3\",\"output_text\":\"b\"\x7d]"

/-- The parse of `rawTwoEntries`. -/
def payloadTwoEntries : List Json :=
  [.obj [("id", .str "1"), ("output_text", .str "a")],
    .obj [("id", .str "3"), ("output_text", .str "b")]]

/-- Witness for C2: the ids-1-and-3 reply against the three-item batch under
`allowCountMismatch` yields one record and all-done updates. -/
theorem allow_mismatch_batch_level_witness :
    2 ≤ itemsThree.length ∧
    extractJSONArray rawTwoEntries = some payloadTwoEntries ∧
    payloadTwoEntries.length ≠ itemsThree.length ∧
    (processReply itemsThree rawTwoEntries true .gemini 0 "batch-1").records.length = 1 ∧
    (buildBatchLevelParsed rawTwoEntries itemsThree (.arr payloadTwoEntries)).jsGet "parseMode" =
      some (.str "batch_level_output") ∧
    (∀ u ∈ (processReply itemsThree rawTwoEntries true .gemini 0 "batch-1").updates,
      u.status = .done) := by
  have h := allow_mismatch_batch_level itemsThree rawTwoEntries payloadTwoEntries
    .gemini 0 "batch-1" (by decide) rfl (Or.inl (by decide))
  exact ⟨by decide, rfl, by decide, h.2.2.1, h.2.2.2.1, h.2.2.2.2.2.2⟩

/-- Entry list of a reconciliation result (empty for a batch-level
outcome). -/
def entriesOf : BatchParseResult → List BatchParseEntry
  | .per_item es => es
  | .batch_level _ _ => []

/-- Counterexample to C1 as stated: on the three-item batch with the
ids-1-and-3 reply under strict count mode, every item — including the item
with id 2 — receives a successful outcome and no entry carries an `error`
field, so id 2 does not get a `missing_result_for_id` error. -/
theorem scenarioB_counterexample :
    (entriesOf (parseBatchResponse rawTwoEntries itemsThree false)).map
        (fun e => e.ok) = [true, true, true] ∧
    (entriesOf (parseBatchResponse rawTwoEntries itemsThree false)).map
        (fun e => e.parsed.jsGet "error") = [none, none, none] :=
  ⟨rfl, rfl⟩

/-- C1 as amended: in Scenario B the items with ids 1 and 3 map by id, while
the item with id 2 — having no id match — is filled by positional fallback
with the array entry at its index (the id-3 entry), so all three items
succeed. -/
theorem scenarioB_theorem :
    (entriesOf (parseBatchResponse rawTwoEntries itemsThree false)).map
        (fun e => (e.ok, e.parsed.jsGet "id")) =
      [(true, some (.str "1")), (true, some (.str "3")), (true, some (.str "3"))] :=
  rfl

/-- Counterexample to C9 as stated: the reply `{"ok":null}` coerces to an
object whose `ok` value is `null` — a value other than the boolean `false` —
yet the single-item outcome's `ok` flag is `false`. -/
theorem single_ok_flag_counterexample :
    coerceSingleObject "\x7b\"ok\":null\x7d" = some (.obj [("ok", Json.null)]) ∧
    Json.null ≠ Json.bool false ∧
    (parseSingleResponse "\x7b\"ok\":null\x7d" (demoQueueItem "1" "i1" .pending)).ok = false :=
  ⟨rfl, fun h => Json.noConfusion h, rfl⟩

/-- C9 as amended: for every reply that coerces to one object, the outcome's
`ok` flag is the object's `ok` field under Boolean coercion — true exactly
when the field is absent (or `undefined`) or carries a truthy value; any
falsy value (`false`, `null`, `0`, `""`) yields `ok = false`. -/
theorem single_ok_flag (raw : String) (item : QueueItem) (o : Json)
    (h : coerceSingleObject raw = some o) :
    (parseSingleResponse raw item).ok = okOf o ∧
    (okOf o = true ↔
      o.jsGet "ok" = none ∨ o.jsGet "ok" = some .undef ∨
      ∃ v, o.jsGet "ok" = some v ∧ v.jsTruthy = true) := by
  constructor
  · simp [parseSingleResponse, h]
  · have hdef : okOf o = (match o.jsGet "ok" with
      | none => true
      | some .undef => true
      | some v => v.jsTruthy) := rfl
    rcases hg : o.jsGet "ok" with _ | v
    · rw [hdef, hg]
      simp
    · rw [hdef, hg]
      cases v with
      | undef => simp
      | null => simp [Json.jsTruthy]
      | bool b => cases b <;> simp [Json.jsTruthy]
      | num n => simp [Json.jsTruthy]
      | str s => simp [Json.jsTruthy]
      | arr xs => simp [Json.jsTruthy]
      | obj fs => simp [Json.jsTruthy]

/-- Witness for C9: the reply `{"ok":0}` carries a falsy `ok` and settles
with `ok = false`. -/
theorem single_ok_flag_witness :
    coerceSingleObject "\x7b\"ok\":0\x7d" = some (.obj [("ok", Json.num 0)]) ∧
    (parseSingleResponse "\x7b\"ok\":0\x7d" (demoQueueItem "1" "i1" .pending)).ok =
      okOf (.obj [("ok", Json.num 0)]) ∧
    okOf (.obj [("ok", Json.num 0)]) = false := by
  have h := single_ok_flag "\x7b\"ok\":0\x7d" (demoQueueItem "1" "i1" .pending)
    (.obj [("ok", Json.num 0)]) rfl
  exact ⟨rfl, h.1, rfl⟩
